import Mathlib

/-!
Verification of the websrv filesystem responder (`src/fs.c`, `src/websrv.c`).

A shallow embedding of the request router and the two streaming responders
of the websrv repository, together with theorems settling the specification
claims about them.

Modelling conventions:
* libmicrohttpd (MHD) objects are modelled by plain Lean data:
  a response is a status, a header list, and a body descriptor;
  `MHD_queue_response` hands such a record to the HTTP layer.
* Content-reader callbacks return `ReadResult`: `chunk n` models a plain
  `ssize_t` count `n ≥ 0` (with `chunk 0` meaning "no progress"),
  `endOfStream` models `MHD_CONTENT_READER_END_OF_STREAM`, and
  `endWithError` models `MHD_CONTENT_READER_END_WITH_ERROR`.
* `snprintf(buf, max, ...)` stores at most `max - 1` characters and returns
  the length the full formatted string would have had, exactly as C99
  specifies; this is visible in the model as a `chunk` count that may
  exceed `max`.
* The operating system is an oracle (`FsEnv`): `stat`, `fopen`, `opendir`
  results and `MHD_create_response_*` allocation success are inputs.
-/

set_option maxRecDepth 4000

namespace Websrv

/-- The constant `PAGE_SIZE` from `<sys/user.h>` (4096 on the targeted platform). -/
def PAGE_SIZE : Nat := 4096

/-- The fixed 404 body, the `PAGE_404` macro of `fs.c` with its C string
literals concatenated. -/
def PAGE_404 : String :=
  "<html><head><title>File not found</title></head><body>File not found</body></html>"

/-- Result of an MHD content-reader callback: a byte count (an ordinary
`ssize_t` return, `chunk 0` = no progress), end of stream, or the fatal
error sentinel. -/
inductive ReadResult where
  | chunk (n : Nat)
  | endOfStream
  | endWithError
deriving DecidableEq, Repr

/-- Model of `struct dir_read_sm` of `fs.c`: the path being listed, the `DIR*`
handle (modelled as `none` for `NULL`, or the list of entries `readdir`
has yet to return), and the `state` field. -/
structure dir_read_sm_t where
  path : String
  dir : Option (List String)
  state : Nat
deriving DecidableEq, Repr

/-- The HTML preamble `on_dir_read` formats in state 0: the C format
string is a concatenation of adjacent string literals, so the literal
indentation spaces are part of the output. -/
def dirHeader (path : String) : String :=
  "<!DOCTYPE html>" ++ "<html>" ++ "  <head>" ++
  "    <title>Index of " ++ path ++ "</title>" ++ "  </head>" ++
  "  <body>" ++ "    <h1>Index of " ++ path ++ "</h1>" ++ "    <ul>"

/-- One listing element, the format string of state 1 of `on_dir_read`. -/
def dirEntryLi (name : String) : String :=
  "<li><a href=\"" ++ name ++ "\">" ++ name ++ "</a></li>"

/-- The closing tags emitted in state 2 of `on_dir_read`. -/
def dirFooter : String := "</ul></body></html>"

/-- Outcome of one call to `on_dir_read`: the returned `ssize_t` (as a
`ReadResult`), the bytes actually stored in the output buffer, and the
state machine after the call. -/
structure DirStep where
  res : ReadResult
  buf : String
  sm : dir_read_sm_t
deriving DecidableEq, Repr

/-- Model of `on_dir_read` of `fs.c`.  A buffer smaller than 512 bytes yields no
progress.  State 0 formats the header, state 1 consumes one `readdir`
entry (skipping names that begin with `'.'`), state 2 formats the footer,
any other state signals end of stream.  `snprintf` truncates the stored
bytes to `max - 1` but returns the untruncated length. -/
def on_dir_read (sm : dir_read_sm_t) (max : Nat) : DirStep :=
  if max < 512 then
    ⟨.chunk 0, "", sm⟩
  else if sm.state = 0 then
    let s := dirHeader sm.path
    ⟨.chunk s.length, s.take (max - 1), { sm with state := sm.state + 1 }⟩
  else if sm.state = 1 then
    match sm.dir with
    | some (e :: rest) =>
      if e.data.head? = some '.' then
        ⟨.chunk 0, "", { sm with dir := some rest }⟩
      else
        let s := dirEntryLi e
        ⟨.chunk s.length, s.take (max - 1), { sm with dir := some rest }⟩
    | some [] => ⟨.chunk 0, "", { sm with state := sm.state + 1 }⟩
    | none => ⟨.chunk 0, "", { sm with state := sm.state + 1 }⟩
  else if sm.state = 2 then
    ⟨.chunk dirFooter.length, dirFooter.take (max - 1), { sm with state := sm.state + 1 }⟩
  else
    ⟨.endOfStream, "", sm⟩

/-- Model of `on_dir_close` of `fs.c`: number of `closedir` calls it performs.
It closes only when the `cls` pointer is non-null and its `dir` field is
non-null. -/
def on_dir_close : Option dir_read_sm_t → Nat
  | none => 0
  | some sm => if sm.dir.isSome then 1 else 0

/-- Model of `on_file_close` of `fs.c`: number of `fclose` calls it performs; the
argument is the `FILE*` pointer, `none` for `NULL`. -/
def on_file_close : Option Unit → Nat
  | none => 0
  | some _ => 1

/-- An open `FILE*` as the responder sees it: `seekOk pos` is whether
`fseek(file, pos, SEEK_SET)` succeeds, and `fread pos max` is the pair of
the `fread(buf, 1, max, file)` return value and the `ferror` flag after
it. -/
structure FileDev where
  seekOk : Nat → Bool
  fread : Nat → Nat → Nat × Bool

/-- Model of `on_file_read` of `fs.c`: seek to `pos`; a seek failure is fatal; a
zero-byte read is fatal when `ferror` is set and end of stream otherwise;
a positive read returns its length. -/
def on_file_read (f : FileDev) (pos max : Nat) : ReadResult :=
  if f.seekOk pos = false then
    .endWithError
  else
    let r := f.fread pos max
    if r.1 = 0 then
      if r.2 then .endWithError else .endOfStream
    else
      .chunk r.1

/-- The `FileDev` of an ordinary on-disk file holding `content`: seeks
succeed, `fread` returns `min max (size - pos)` bytes and never sets the
error flag. -/
def fileDevOf (content : List Nat) : FileDev :=
  ⟨fun _ => true, fun pos max => (min max (content.length - pos), false)⟩

/-- Model of `struct stat` restricted to the fields `fs.c` reads: `S_ISREG` of
`st_mode`, and `st_size`. -/
structure StatRec where
  isReg : Bool
  size : Nat
deriving DecidableEq, Repr

/-- The operating-system and allocator oracle a request runs against:
`stat` (`none` = the call failed), `fopen` success, `opendir` results
(`none` = failure, otherwise the entry sequence `readdir` will yield),
the opened file's bytes, and whether `MHD_create_response_*` succeeds
(each execution path of `fs.c` performs at most one such call). -/
structure FsEnv where
  stat : String → Option StatRec
  openOk : String → Bool
  fileContent : String → List Nat
  dirents : String → Option (List String)
  allocOk : Bool

/-- Body descriptor of an MHD response object: a fixed buffer
(`MHD_create_response_from_buffer`) or a callback response
(`MHD_create_response_from_callback`) with its declared size, block size
and reader state. -/
inductive RespBody where
  | fixed (data : String)
  | fileStream (declaredSize : Nat) (block : Nat) (content : List Nat)
  | dirStream (block : Nat) (sm : dir_read_sm_t)
deriving DecidableEq, Repr

/-- A response as handed to `MHD_queue_response`: HTTP status, the
headers added to the response object, and the body descriptor. -/
structure Response where
  status : Nat
  headers : List (String × String)
  body : RespBody
deriving DecidableEq, Repr

/-- Model of `MHD_add_response_header`. -/
def MHD_add_response_header (resp : Response) (key value : String) : Response :=
  { resp with headers := resp.headers ++ [(key, value)] }

/-- Model of `websrv_queue_response` of `src/websrv.c`: add the permissive CORS
header to the response object, then queue it with the given status. -/
def websrv_queue_response (status : Nat) (resp : Response) : Response :=
  { MHD_add_response_header resp "Access-Control-Allow-Origin" "*" with status := status }

/-- The close callback registered with a queued callback response,
together with the `cls` pointer it captured. -/
inductive Closer where
  | noCloser
  | fileCloser (h : Option Unit)
  | dirCloser (sm : Option dir_read_sm_t)
deriving Repr

/-- Number of `fclose`/`closedir` calls one invocation of the registered
close callback performs. -/
def runCloser : Closer → Nat
  | .noCloser => 0
  | .fileCloser h => on_file_close h
  | .dirCloser sm => on_dir_close sm

/-- Observable outcome of running a request handler: the response handed
to `MHD_queue_response` (if any), the number of `fopen`/`opendir`
successes, the number of `fclose`/`closedir` calls the handler itself
performed, and the close callback registered with the queued response. -/
structure HandlerResult where
  queued : Option Response
  opens : Nat
  directCloses : Nat
  closer : Closer
deriving Repr

/-- Model of `on_file_request` of `fs.c`: re-`stat` the path and open it; if
either fails, queue the fixed 404 page; otherwise queue a 200 callback
response declaring the stat size, with `on_file_read` / `on_file_close`;
if building the response object fails, close the file and queue
nothing. -/
def on_file_request (env : FsEnv) (path : String) : HandlerResult :=
  match env.stat path with
  | none =>
    ⟨if env.allocOk then some ⟨404, [], .fixed PAGE_404⟩ else none, 0, 0, .noCloser⟩
  | some st =>
    if env.openOk path then
      if env.allocOk then
        ⟨some ⟨200, [], .fileStream st.size (32 * PAGE_SIZE) (env.fileContent path)⟩,
          1, 0, .fileCloser (some ())⟩
      else
        ⟨none, 1, 1, .noCloser⟩
    else
      ⟨if env.allocOk then some ⟨404, [], .fixed PAGE_404⟩ else none, 0, 0, .noCloser⟩

/-- Model of `on_dir_request` of `fs.c`: a path that is empty or does not end in
`'/'` gets an empty-bodied 301 whose `Location` is `"/fs" ++ path ++ "/"`
and opens nothing; otherwise `opendir`, with failure queueing the fixed
404 page; on success queue a 200 chunked callback response around a fresh
state machine; if building the response object fails, close the directory
and queue nothing. -/
def on_dir_request (env : FsEnv) (path : String) : HandlerResult :=
  if path.length = 0 ∨ path.data.getLast? ≠ some '/' then
    if env.allocOk then
      ⟨some (MHD_add_response_header ⟨301, [], .fixed ""⟩
              "Location" ("/fs" ++ path ++ "/")), 0, 0, .noCloser⟩
    else
      ⟨none, 0, 0, .noCloser⟩
  else
    match env.dirents path with
    | none =>
      ⟨if env.allocOk then some ⟨404, [], .fixed PAGE_404⟩ else none, 0, 0, .noCloser⟩
    | some entries =>
      let sm : dir_read_sm_t := ⟨path, some entries, 0⟩
      if env.allocOk then
        ⟨some ⟨200, [], .dirStream (32 * PAGE_SIZE) sm⟩, 1, 0, .dirCloser (some sm)⟩
      else
        ⟨none, 1, 1, .noCloser⟩

/-- Model of `fs_on_request` of `fs.c`: drop the 3-character routing prefix; an
empty remainder lists the root directory; a failed `stat` queues the
fixed 404 page; a regular file goes to the file responder, everything
else to the directory responder. -/
def fs_on_request (env : FsEnv) (url : String) : HandlerResult :=
  let path := url.drop 3
  if path.length = 0 then
    on_dir_request env "/"
  else
    match env.stat path with
    | some st =>
      if st.isReg then on_file_request env path else on_dir_request env path
    | none =>
      ⟨if env.allocOk then some ⟨404, [], .fixed PAGE_404⟩ else none, 0, 0, .noCloser⟩

/-- The `<li>` elements `on_dir_read` emits for an entry sequence, in
`readdir` order: entries whose name begins with `'.'` contribute
nothing. -/
def dirEntriesHtml : List String → String
  | [] => ""
  | e :: rest => (if e.data.head? = some '.' then "" else dirEntryLi e) ++ dirEntriesHtml rest

/-- The complete listing body the directory responder streams for `path`
with entry sequence `entries`. -/
def dirListingBody (path : String) (entries : List String) : String :=
  dirHeader path ++ dirEntriesHtml entries ++ dirFooter

/-- Modelled from the spec: the `<li>` elements as claim C2 words them,
filtering exactly the names `.` and `..`. -/
def dirEntriesHtmlSpec : List String → String
  | [] => ""
  | e :: rest => (if e = "." ∨ e = ".." then "" else dirEntryLi e) ++ dirEntriesHtmlSpec rest

/-- Modelled from the spec: the listing body as claim C2 words it, with a
whitespace-free preamble and only `.` and `..` omitted.  To be compared
with `dirListingBody`, which follows the code. -/
def dirListingBodySpec (path : String) (entries : List String) : String :=
  "<!DOCTYPE html><html><head><title>Index of " ++ path ++
  "</title></head><body><h1>Index of " ++ path ++ "</h1><ul>" ++
  dirEntriesHtmlSpec entries ++ "</ul></body></html>"

/-- Drive `on_dir_read` the way MHD drives a chunked callback response:
call it repeatedly with a `max`-byte buffer and consume, for each
`chunk n` reply, the first `n` buffered bytes; stop at end of stream.
`none` models a fatal error or fuel exhaustion. -/
def streamDir (max : Nat) : dir_read_sm_t → Nat → Option String
  | _, 0 => none
  | sm, fuel + 1 =>
    let st := on_dir_read sm max
    match st.res with
    | .endOfStream => some ""
    | .endWithError => none
    | .chunk n => (streamDir max st.sm fuel).map (fun rest => st.buf.take n ++ rest)

/-- Drive `on_file_read` over the on-disk file `content` the way MHD
drives a sized callback response: seek to the running position, consume
the `n` bytes `fread` stored on each `chunk n` reply, stop at end of
stream.  `none` models a fatal error or fuel exhaustion. -/
def streamFile (content : List Nat) (max : Nat) : Nat → Nat → Option (List Nat)
  | _, 0 => none
  | pos, fuel + 1 =>
    match on_file_read (fileDevOf content) pos max with
    | .endOfStream => some []
    | .endWithError => none
    | .chunk n =>
      (streamFile content max (pos + n) fuel).map
        (fun rest => (content.drop pos).take n ++ rest)

/-- How many times a header list carries the CORS key
`Access-Control-Allow-Origin`. -/
def countCors : List (String × String) → Nat
  | [] => 0
  | (k, _) :: rest => (if k = "Access-Control-Allow-Origin" then 1 else 0) + countCors rest

/-- A concrete oracle for witnesses and counterexamples: every `stat`,
`fopen` and `opendir` fails, while response allocation succeeds. -/
def envA : FsEnv := ⟨fun _ => none, fun _ => false, fun _ => [], fun _ => none, true⟩

/-- A concrete oracle whose root holds one regular 3-byte file `/f` and
one directory `/d/` with entries `.`, `..`, `.h` and `a.txt`. -/
def envB : FsEnv :=
  ⟨fun p => if p = "/f" then some ⟨true, 3⟩
            else if p = "/d/" ∨ p = "/d" ∨ p = "/" then some ⟨false, 0⟩
            else none,
   fun p => p == "/f",
   fun p => if p = "/f" then [10, 20, 30] else [],
   fun p => if p = "/d/" then some [".", "..", ".h", "a.txt"]
            else if p = "/" then some ["d", "f"] else none,
   true⟩

/-- A 300-character path, long enough that the header `snprintf` output
exceeds a 512-byte buffer. -/
def longPath : String := String.mk (List.replicate 300 'a')

/-! Helper lemmas. -/

theorem countCors_append (a b : List (String × String)) :
    countCors (a ++ b) = countCors a + countCors b := by
  induction a with
  | nil => simp [countCors]
  | cons p rest ih => cases p; simp [countCors, ih]; omega

theorem string_take_of_length_le (s : String) (k : Nat) (h : s.length ≤ k) :
    s.take k = s := by
  apply String.ext
  rw [String.data_take]
  exact List.take_of_length_le h

theorem string_length_eq_zero {s : String} : s.length = 0 ↔ s = "" := by
  constructor
  · intro h
    apply String.ext
    exact List.length_eq_zero.mp h
  · intro h
    simp [h]

theorem on_dir_read_of_small {sm : dir_read_sm_t} {max : Nat} (h : max < 512) :
    on_dir_read sm max = ⟨.chunk 0, "", sm⟩ := by
  unfold on_dir_read
  simp [h]

/-! Claim theorems. -/

/-- C6: a directory read callback invoked with a buffer smaller than the
512-byte minimum emission unit returns 0 and leaves the whole stream
state — phase, directory handle and path — unchanged, whatever the
phase. -/
theorem dir_read_small_buffer_no_progress (sm : dir_read_sm_t) (max : Nat)
    (h : max < 512) :
    on_dir_read sm max = ⟨.chunk 0, "", sm⟩ :=
  on_dir_read_of_small h

theorem dir_read_small_buffer_no_progress_witness :
    100 < 512 ∧
    on_dir_read ⟨"/tmp/", some ["a"], 3⟩ 100 = ⟨.chunk 0, "", ⟨"/tmp/", some ["a"], 3⟩⟩ :=
  ⟨by decide, dir_read_small_buffer_no_progress ⟨"/tmp/", some ["a"], 3⟩ 100 (by decide)⟩

/-- C5 counterexample: in the Done phase (`state = 3`) a call with a
buffer smaller than 512 bytes returns 0, not the end-of-stream sentinel,
so it is not the case that every call after Done signals end of
stream. -/
theorem dir_read_done_small_buffer_not_eos :
    (on_dir_read ⟨"/", some [], 3⟩ 0).res ≠ ReadResult.endOfStream := by
  decide

/-- C5 (amended): starting from a phase among {0 Header, 1 Entries,
2 Footer, 3 Done}, one call to the directory read callback lands in one
of those four phases again, never decreases the phase, advances it by at
most one, and once the phase is Done every call leaves the state
unchanged and — provided the buffer reaches the 512-byte minimum —
signals end of stream (a smaller buffer returns 0 instead). -/
theorem dir_read_phase_machine (sm : dir_read_sm_t) (max : Nat)
    (h3 : sm.state ≤ 3) :
    (on_dir_read sm max).sm.state ≤ 3 ∧
    sm.state ≤ (on_dir_read sm max).sm.state ∧
    (on_dir_read sm max).sm.state ≤ sm.state + 1 ∧
    (sm.state = 3 → (on_dir_read sm max).sm = sm ∧
      (512 ≤ max → (on_dir_read sm max).res = ReadResult.endOfStream)) := by
  rcases Nat.lt_or_ge max 512 with hmax | hmax
  · rw [on_dir_read_of_small hmax]
    exact ⟨h3, Nat.le_refl _, Nat.le_succ _, fun _ => ⟨rfl, fun hle => by omega⟩⟩
  · have hnlt : ¬ max < 512 := by omega
    have hcases : sm.state = 0 ∨ sm.state = 1 ∨ sm.state = 2 ∨ sm.state = 3 := by omega
    rcases hcases with hs | hs | hs | hs
    · simp [on_dir_read, hs, hnlt]
    · rcases hd : sm.dir with _ | ⟨_ | ⟨e, rest⟩⟩ <;>
        simp [on_dir_read, hs, hnlt, hd] <;>
        by_cases hdot : e.data.head? = some '.' <;>
        simp [hdot]
    · simp [on_dir_read, hs, hnlt]
    · simp [on_dir_read, hs, hnlt]

theorem dir_read_phase_machine_witness :
    (3 : Nat) ≤ 3 ∧
    (on_dir_read ⟨"/tmp/", some [], 3⟩ 512).sm = ⟨"/tmp/", some [], 3⟩ ∧
    (on_dir_read ⟨"/tmp/", some [], 3⟩ 512).res = ReadResult.endOfStream := by
  have h := dir_read_phase_machine ⟨"/tmp/", some [], 3⟩ 512 (by decide)
  exact ⟨by decide, (h.2.2.2 rfl).1, (h.2.2.2 rfl).2 (by decide)⟩

/-- C7: the file read callback returns the fatal sentinel on a seek
failure or on a zero-byte read with the error flag set, the end-of-stream
sentinel on a zero-byte read with no error, and otherwise the positive
number of bytes read, which is at most the requested chunk size. -/
theorem file_read_classification (f : FileDev) (pos max : Nat)
    (hle : (f.fread pos max).1 ≤ max) :
    (f.seekOk pos = false → on_file_read f pos max = ReadResult.endWithError) ∧
    (f.seekOk pos = true → (f.fread pos max).1 = 0 → (f.fread pos max).2 = true →
      on_file_read f pos max = ReadResult.endWithError) ∧
    (f.seekOk pos = true → (f.fread pos max).1 = 0 → (f.fread pos max).2 = false →
      on_file_read f pos max = ReadResult.endOfStream) ∧
    (f.seekOk pos = true → 0 < (f.fread pos max).1 →
      on_file_read f pos max = ReadResult.chunk (f.fread pos max).1 ∧
      (f.fread pos max).1 ≤ max) := by
  unfold on_file_read
  refine ⟨fun h => by simp [h], fun hs h0 he => ?_, fun hs h0 he => ?_, fun hs hp => ?_⟩
  · simp [hs, h0, he]
  · simp [hs, h0, he]
  · have h0 : ¬ (f.fread pos max).1 = 0 := by omega
    exact ⟨by simp [hs, h0], hle⟩

theorem file_read_classification_witness :
    ((fileDevOf [7, 8, 9]).fread 0 16).1 ≤ 16 ∧
    on_file_read (fileDevOf [7, 8, 9]) 0 16 = ReadResult.chunk 3 := by
  have h := file_read_classification (fileDevOf [7, 8, 9]) 0 16 (by decide)
  exact ⟨by decide, (h.2.2.2 (by decide) (by decide)).1⟩

/-- C4: a directory request whose path does not end in `'/'` queues an
empty-bodied 301 whose `Location` header is exactly `"/fs" ++ path ++ "/"`,
opening no directory handle on this branch. -/
theorem dir_request_redirect (env : FsEnv) (path : String)
    (h : path.data.getLast? ≠ some '/') (ha : env.allocOk = true) :
    on_dir_request env path =
      ⟨some ⟨301, [("Location", "/fs" ++ path ++ "/")], .fixed ""⟩, 0, 0, .noCloser⟩ := by
  unfold on_dir_request
  simp [h, ha, MHD_add_response_header]

theorem dir_request_redirect_witness :
    "/tmp/x".data.getLast? ≠ some '/' ∧ envA.allocOk = true ∧
    on_dir_request envA "/tmp/x" =
      ⟨some ⟨301, [("Location", "/fs/tmp/x/")], .fixed ""⟩, 0, 0, .noCloser⟩ := by
  have h := dir_request_redirect envA "/tmp/x" (by decide) rfl
  exact ⟨by decide, rfl, h⟩

/-- C3: the router drops exactly the first 3 characters of the URL; an
empty remainder is served as the root directory `/`; a failed `stat`
queues a 404 with exactly the fixed not-found body; a regular file is
delegated to the file responder; anything else is delegated to the
directory responder. -/
theorem fs_request_routing (env : FsEnv) (url : String) :
    (url.drop 3 = "" → fs_on_request env url = on_dir_request env "/") ∧
    (∀ st, url.drop 3 ≠ "" → env.stat (url.drop 3) = some st → st.isReg = true →
      fs_on_request env url = on_file_request env (url.drop 3)) ∧
    (∀ st, url.drop 3 ≠ "" → env.stat (url.drop 3) = some st → st.isReg = false →
      fs_on_request env url = on_dir_request env (url.drop 3)) ∧
    (url.drop 3 ≠ "" → env.stat (url.drop 3) = none → env.allocOk = true →
      (fs_on_request env url).queued = some ⟨404, [], RespBody.fixed PAGE_404⟩) := by
  refine ⟨fun h => ?_, fun st hne hstat hreg => ?_, fun st hne hstat hreg => ?_,
    fun hne hstat ha => ?_⟩ <;>
    unfold fs_on_request
  · simp [string_length_eq_zero.mpr h]
  · have hlen : ¬ (url.drop 3).length = 0 := fun hc => hne (string_length_eq_zero.mp hc)
    simp [hlen, hstat, hreg]
  · have hlen : ¬ (url.drop 3).length = 0 := fun hc => hne (string_length_eq_zero.mp hc)
    simp [hlen, hstat, hreg]
  · have hlen : ¬ (url.drop 3).length = 0 := fun hc => hne (string_length_eq_zero.mp hc)
    simp [hlen, hstat, ha]

theorem fs_request_routing_witness :
    "/fs/nope".drop 3 ≠ "" ∧ envA.stat "/nope" = none ∧ envA.allocOk = true ∧
    (fs_on_request envA "/fs/nope").queued = some ⟨404, [], RespBody.fixed PAGE_404⟩ := by
  have h := (fs_request_routing envA "/fs/nope").2.2.2 (by decide) rfl rfl
  exact ⟨by decide, rfl, rfl, h⟩

theorem on_file_request_cors_free (env : FsEnv) (path : String) (r : Response)
    (h : (on_file_request env path).queued = some r) : countCors r.headers = 0 := by
  unfold on_file_request at h
  rcases hstat : env.stat path with _ | st <;> rw [hstat] at h <;>
    rcases ha : env.allocOk <;> rcases ho : env.openOk path <;>
    simp [ha, ho] at h <;> subst h <;> simp [countCors]

theorem on_dir_request_cors_free (env : FsEnv) (path : String) (r : Response)
    (h : (on_dir_request env path).queued = some r) : countCors r.headers = 0 := by
  have hloc : ¬ ("Location" = "Access-Control-Allow-Origin") := by decide
  unfold on_dir_request at h
  by_cases hc : path.length = 0 ∨ path.data.getLast? ≠ some '/' <;>
    rcases ha : env.allocOk <;>
    rcases hd : env.dirents path with _ | entries <;>
    simp [hc, ha, hd, MHD_add_response_header] at h <;>
    subst h <;>
    simp [countCors, hloc]

theorem fs_on_request_cors_free (env : FsEnv) (url : String) (r : Response)
    (h : (fs_on_request env url).queued = some r) : countCors r.headers = 0 := by
  unfold fs_on_request at h
  by_cases hlen : (url.drop 3).length = 0
  · simp only [hlen, if_true] at h
    exact on_dir_request_cors_free env "/" r h
  · simp only [hlen, if_false] at h
    rcases hstat : env.stat (url.drop 3) with _ | st <;> rw [hstat] at h
    · rcases ha : env.allocOk <;> simp [ha] at h
      subst h; simp [countCors]
    · rcases hreg : st.isReg <;> simp [hreg] at h
      · exact on_dir_request_cors_free env (url.drop 3) r h
      · exact on_file_request_cors_free env (url.drop 3) r h

/-- C1 counterexample: a 404 produced by the request handler reaches the
HTTP layer with an empty header list — in particular without
`Access-Control-Allow-Origin: *`. -/
theorem fs_response_without_cors :
    (fs_on_request envA "/fs/nope").queued = some ⟨404, [], RespBody.fixed PAGE_404⟩ ∧
    ¬ (("Access-Control-Allow-Origin", "*") ∈
        (⟨404, [], RespBody.fixed PAGE_404⟩ : Response).headers) := by
  constructor
  · rfl
  · decide

/-- C1 (amended): no response queued by the filesystem request handler
carries `Access-Control-Allow-Origin` — the handler queues through
`MHD_queue_response` directly; the header is added, exactly once, only by
`websrv_queue_response`, which `fs.c` does not use. -/
theorem fs_cors_accounting (env : FsEnv) (url : String) :
    (∀ r, (fs_on_request env url).queued = some r → countCors r.headers = 0) ∧
    (∀ status resp, countCors (websrv_queue_response status resp).headers =
      countCors resp.headers + 1) := by
  constructor
  · exact fun r h => fs_on_request_cors_free env url r h
  · intro status resp
    unfold websrv_queue_response MHD_add_response_header
    simp [countCors_append, countCors]

theorem fs_cors_accounting_witness :
    (fs_on_request envA "/fs/nope").queued = some ⟨404, [], RespBody.fixed PAGE_404⟩ ∧
    countCors (⟨404, [], RespBody.fixed PAGE_404⟩ : Response).headers = 0 ∧
    countCors (websrv_queue_response 200 ⟨200, [], RespBody.fixed ""⟩).headers =
      countCors (⟨200, [], RespBody.fixed ""⟩ : Response).headers + 1 := by
  have h := fs_cors_accounting envA "/fs/nope"
  exact ⟨rfl, h.1 ⟨404, [], RespBody.fixed PAGE_404⟩ rfl, h.2 200 ⟨200, [], RespBody.fixed ""⟩⟩

theorem on_file_request_balanced (env : FsEnv) (path : String) :
    (on_file_request env path).opens =
      (on_file_request env path).directCloses +
        runCloser (on_file_request env path).closer := by
  unfold on_file_request
  rcases hstat : env.stat path with _ | st <;>
    rcases ha : env.allocOk <;> rcases ho : env.openOk path <;>
    simp [ha, ho, runCloser, on_file_close]

theorem on_dir_request_balanced (env : FsEnv) (path : String) :
    (on_dir_request env path).opens =
      (on_dir_request env path).directCloses +
        runCloser (on_dir_request env path).closer := by
  unfold on_dir_request
  by_cases hc : path.length = 0 ∨ path.data.getLast? ≠ some '/' <;>
    rcases ha : env.allocOk <;>
    rcases hd : env.dirents path with _ | entries <;>
    simp [hc, ha, hd, runCloser, on_dir_close, on_file_close]

theorem fs_on_request_balanced (env : FsEnv) (url : String) :
    (fs_on_request env url).opens =
      (fs_on_request env url).directCloses +
        runCloser (fs_on_request env url).closer := by
  unfold fs_on_request
  by_cases hlen : (url.drop 3).length = 0
  · simp only [hlen, if_true]
    exact on_dir_request_balanced env "/"
  · simp only [hlen, if_false]
    rcases hstat : env.stat (url.drop 3) with _ | st
    · rcases ha : env.allocOk <;> simp [ha, runCloser]
    · rcases hreg : st.isReg <;> simp [hreg]
      · exact on_dir_request_balanced env (url.drop 3)
      · exact on_file_request_balanced env (url.drop 3)

/-- C9: on every exit path of a request — including the path where the
response object cannot be built — the opened handles are closed exactly
once, counting both the handler's own `fclose`/`closedir` calls and the
one invocation of the registered close callback; and each close callback
is a no-op on a null or unopened handle. -/
theorem handles_closed_exactly_once (env : FsEnv) (path url : String) :
    ((on_file_request env path).opens =
      (on_file_request env path).directCloses +
        runCloser (on_file_request env path).closer) ∧
    ((on_dir_request env path).opens =
      (on_dir_request env path).directCloses +
        runCloser (on_dir_request env path).closer) ∧
    ((fs_on_request env url).opens =
      (fs_on_request env url).directCloses +
        runCloser (fs_on_request env url).closer) ∧
    on_file_close none = 0 ∧
    on_dir_close none = 0 ∧
    (∀ sm : dir_read_sm_t, sm.dir = none → on_dir_close (some sm) = 0) := by
  refine ⟨on_file_request_balanced env path, on_dir_request_balanced env path,
    fs_on_request_balanced env url, rfl, rfl, fun sm hsm => ?_⟩
  simp [on_dir_close, hsm]

theorem streamDir_succ (max : Nat) (sm : dir_read_sm_t) (fuel : Nat) :
    streamDir max sm (fuel + 1) =
      match (on_dir_read sm max).res with
      | .endOfStream => some ""
      | .endWithError => none
      | .chunk n =>
        (streamDir max (on_dir_read sm max).sm fuel).map
          (fun rest => (on_dir_read sm max).buf.take n ++ rest) := rfl

theorem streamDir_state2 (path : String) (d : Option (List String)) (max : Nat)
    (hmax : 512 ≤ max) :
    streamDir max ⟨path, d, 2⟩ 2 = some dirFooter := by
  have hnlt : ¬ max < 512 := by omega
  have h19 : dirFooter.length = 19 := by decide
  have hlen : dirFooter.length ≤ max - 1 := by omega
  have hstep : on_dir_read ⟨path, d, 2⟩ max =
      ⟨.chunk dirFooter.length, dirFooter.take (max - 1), ⟨path, d, 3⟩⟩ := by
    simp [on_dir_read, hnlt]
  have hstep3 : on_dir_read ⟨path, d, 3⟩ max = ⟨.endOfStream, "", ⟨path, d, 3⟩⟩ := by
    simp [on_dir_read, hnlt]
  rw [show (2 : Nat) = 1 + 1 from rfl, streamDir_succ, hstep]
  dsimp only
  rw [show (1 : Nat) = 0 + 1 from rfl, streamDir_succ, hstep3]
  dsimp only [Option.map]
  rw [string_take_of_length_le _ _ hlen, string_take_of_length_le _ _ (Nat.le_refl _),
    String.append_empty]

theorem streamDir_state1 (path : String) (max : Nat) (hmax : 512 ≤ max) :
    ∀ entries : List String, (∀ e ∈ entries, (dirEntryLi e).length ≤ max - 1) →
    streamDir max ⟨path, some entries, 1⟩ (entries.length + 3) =
      some (dirEntriesHtml entries ++ dirFooter) := by
  have hnlt : ¬ max < 512 := by omega
  intro entries
  induction entries with
  | nil =>
    intro _
    have hstep : on_dir_read ⟨path, some [], 1⟩ max =
        ⟨.chunk 0, "", ⟨path, some [], 2⟩⟩ := by
      simp [on_dir_read, hnlt]
    rw [show ([] : List String).length + 3 = 2 + 1 from rfl, streamDir_succ, hstep]
    dsimp only
    rw [streamDir_state2 path (some []) max hmax]
    dsimp only [Option.map]
    simp [dirEntriesHtml, String.empty_append, show ("".take 0 : String) = "" from rfl]
  | cons e rest ih =>
    intro hfit
    have hfitRest : ∀ e' ∈ rest, (dirEntryLi e').length ≤ max - 1 :=
      fun e' he' => hfit e' (List.mem_cons_of_mem _ he')
    rw [show (e :: rest).length + 3 = (rest.length + 3) + 1 from rfl, streamDir_succ]
    by_cases hdot : e.data.head? = some '.'
    · have hstep : on_dir_read ⟨path, some (e :: rest), 1⟩ max =
          ⟨.chunk 0, "", ⟨path, some rest, 1⟩⟩ := by
        simp [on_dir_read, hnlt, hdot]
      rw [hstep]
      dsimp only
      rw [ih hfitRest]
      dsimp only [Option.map]
      simp [dirEntriesHtml, hdot, String.empty_append, show ("".take 0 : String) = "" from rfl]
    · have hstep : on_dir_read ⟨path, some (e :: rest), 1⟩ max =
          ⟨.chunk (dirEntryLi e).length, (dirEntryLi e).take (max - 1),
            ⟨path, some rest, 1⟩⟩ := by
        simp [on_dir_read, hnlt, hdot]
      rw [hstep]
      dsimp only
      rw [ih hfitRest]
      dsimp only [Option.map]
      rw [string_take_of_length_le _ _ (hfit e (List.mem_cons_self e rest)),
        string_take_of_length_le _ _ (Nat.le_refl _)]
      simp [dirEntriesHtml, hdot, String.append_assoc]

theorem streamDir_run (path : String) (entries : List String) (max : Nat)
    (hmax : 512 ≤ max) (hhead : (dirHeader path).length ≤ max - 1)
    (hfit : ∀ e ∈ entries, (dirEntryLi e).length ≤ max - 1) :
    streamDir max ⟨path, some entries, 0⟩ (entries.length + 4) =
      some (dirListingBody path entries) := by
  have hnlt : ¬ max < 512 := by omega
  have hstep : on_dir_read ⟨path, some entries, 0⟩ max =
      ⟨.chunk (dirHeader path).length, (dirHeader path).take (max - 1),
        ⟨path, some entries, 1⟩⟩ := by
    simp [on_dir_read, hnlt]
  rw [show entries.length + 4 = (entries.length + 3) + 1 from rfl, streamDir_succ, hstep]
  dsimp only
  rw [streamDir_state1 path max hmax entries hfit]
  dsimp only [Option.map]
  rw [string_take_of_length_le _ _ hhead, string_take_of_length_le _ _ (Nat.le_refl _)]
  simp [dirListingBody, String.append_assoc]

/-- C2 counterexample: for the directory `/` containing the single entry
`.h`, the streamed body is not what the claim words say — the code skips
every entry beginning with `.` (not only `.` and `..`), and its preamble
carries the indentation spaces of the source's string literals. -/
theorem dir_listing_body_disagrees_with_spec :
    streamDir 520 ⟨"/", some [".h"], 0⟩ 5 ≠ some (dirListingBodySpec "/" [".h"]) := by
  rw [show (5 : Nat) = ([".h"] : List String).length + 4 from rfl,
    streamDir_run "/" [".h"] 520 (by omega) (by decide) (by decide)]
  decide

/-- C2 (amended): for every directory path and entry sequence, provided
the buffer capacity is at least 512 bytes and each formatted piece fits
in it, the streamed listing body is exactly the concatenation of the
header `<!DOCTYPE html><html>  <head>    <title>Index of {path}</title>
  </head>  <body>    <h1>Index of {path}</h1>    <ul>` (indentation
spaces included), one `<li><a href="{name}">{name}</a></li>` element for
each entry whose name does not begin with `.` — every such entry exactly
once, in order, with the raw name as both href and text — and the footer
`</ul></body></html>`. -/
theorem dir_listing_body (path : String) (entries : List String) (max : Nat)
    (hmax : 512 ≤ max) (hhead : (dirHeader path).length ≤ max - 1)
    (hfit : ∀ e ∈ entries, (dirEntryLi e).length ≤ max - 1) :
    streamDir max ⟨path, some entries, 0⟩ (entries.length + 4) =
      some (dirListingBody path entries) :=
  streamDir_run path entries max hmax hhead hfit

theorem dir_listing_body_witness :
    (512 ≤ 520 ∧ (dirHeader "/d/").length ≤ 519 ∧
      ∀ e ∈ [".", "..", ".h", "a.txt"], (dirEntryLi e).length ≤ 519) ∧
    streamDir 520 ⟨"/d/", some [".", "..", ".h", "a.txt"], 0⟩ 8 =
      some (dirListingBody "/d/" [".", "..", ".h", "a.txt"]) := by
  refine ⟨⟨by omega, by decide, by decide⟩, ?_⟩
  exact dir_listing_body "/d/" [".", "..", ".h", "a.txt"] 520 (by omega) (by decide)
    (by decide)

theorem handles_closed_exactly_once_witness :
    (on_file_request envB "/f").opens =
      (on_file_request envB "/f").directCloses +
        runCloser (on_file_request envB "/f").closer ∧
    (on_dir_request envB "/d/").opens =
      (on_dir_request envB "/d/").directCloses +
        runCloser (on_dir_request envB "/d/").closer ∧
    on_dir_close (some ⟨"/d/", none, 0⟩) = 0 := by
  have h := handles_closed_exactly_once envB "/f" "/fs/f"
  have h2 := handles_closed_exactly_once envB "/d/" "/fs/d/"
  exact ⟨h.1, h2.2.1, h.2.2.2.2.2 ⟨"/d/", none, 0⟩ rfl⟩

theorem streamFile_succ (content : List Nat) (max pos fuel : Nat) :
    streamFile content max pos (fuel + 1) =
      match on_file_read (fileDevOf content) pos max with
      | .endOfStream => some []
      | .endWithError => none
      | .chunk n =>
        (streamFile content max (pos + n) fuel).map
          (fun rest => (content.drop pos).take n ++ rest) := rfl

theorem on_file_read_pure_eos (content : List Nat) (pos max : Nat)
    (h : content.length ≤ pos) :
    on_file_read (fileDevOf content) pos max = .endOfStream := by
  unfold on_file_read fileDevOf
  simp [Nat.sub_eq_zero_of_le h]

theorem on_file_read_pure_chunk (content : List Nat) (pos max : Nat)
    (hmax : 1 ≤ max) (h : pos < content.length) :
    on_file_read (fileDevOf content) pos max =
      .chunk (min max (content.length - pos)) := by
  unfold on_file_read fileDevOf
  have hne : ¬ (min max (content.length - pos) = 0) := by
    have := Nat.lt_min.mpr (And.intro (by omega : 0 < max) (by omega : 0 < content.length - pos))
    omega
  simp [hne]

theorem streamFile_drop (content : List Nat) (max : Nat) (hmax : 1 ≤ max) :
    ∀ k pos, content.length - pos ≤ k →
      streamFile content max pos (k + 1) = some (content.drop pos) := by
  intro k
  induction k with
  | zero =>
    intro pos h
    have hle : content.length ≤ pos := by omega
    rw [streamFile_succ, on_file_read_pure_eos content pos max hle,
      List.drop_eq_nil_of_le hle]
  | succ k ih =>
    intro pos h
    by_cases hle : content.length ≤ pos
    · rw [streamFile_succ, on_file_read_pure_eos content pos max hle,
        List.drop_eq_nil_of_le hle]
    · have hlt : pos < content.length := by omega
      have hn : 0 < min max (content.length - pos) :=
        Nat.lt_min.mpr (And.intro (by omega) (by omega))
      rw [streamFile_succ, on_file_read_pure_chunk content pos max hmax hlt]
      dsimp only
      rw [ih (pos + min max (content.length - pos)) (by omega)]
      dsimp only [Option.map]
      rw [← List.drop_drop (min max (content.length - pos)) pos content,
        List.take_append_drop]

/-- C8: for a regular file that stats and opens, the responder queues a
200 whose declared length is the stat size; when that size agrees with
the file's bytes, streaming the body yields exactly those `N` bytes and
then terminates.  If the stat or the open fails, a 404 with the fixed
not-found body is queued and no descriptor is held. -/
theorem file_request_response (env : FsEnv) (path : String) :
    (∀ st, env.stat path = some st → env.openOk path = true → env.allocOk = true →
      st.size = (env.fileContent path).length →
      (on_file_request env path).queued =
        some ⟨200, [], .fileStream st.size (32 * PAGE_SIZE) (env.fileContent path)⟩ ∧
      (∀ max, 1 ≤ max →
        streamFile (env.fileContent path) max 0 (st.size + 1) =
          some (env.fileContent path))) ∧
    ((env.stat path = none ∨ env.openOk path = false) → env.allocOk = true →
      (on_file_request env path).queued = some ⟨404, [], .fixed PAGE_404⟩ ∧
      (on_file_request env path).opens = 0) := by
  constructor
  · intro st hstat hopen halloc hsize
    constructor
    · unfold on_file_request
      rw [hstat]
      simp [hopen, halloc]
    · intro max hmax
      rw [hsize]
      have h := streamFile_drop (env.fileContent path) max hmax
        (env.fileContent path).length 0 (by omega)
      simpa using h
  · intro hfail halloc
    unfold on_file_request
    rcases hstat2 : env.stat path with _ | st
    · simp [halloc]
    · rcases hfail with hstat | hopen
      · rw [hstat] at hstat2
        cases hstat2
      · simp [hopen, halloc]

theorem file_request_response_witness :
    envB.stat "/f" = some ⟨true, 3⟩ ∧ envB.openOk "/f" = true ∧ envB.allocOk = true ∧
    (3 : Nat) = [10, 20, 30].length ∧
    (on_file_request envB "/f").queued =
      some ⟨200, [], .fileStream 3 (32 * PAGE_SIZE) [10, 20, 30]⟩ ∧
    streamFile [10, 20, 30] 2 0 4 = some [10, 20, 30] := by
  have h := (file_request_response envB "/f").1 ⟨true, 3⟩ rfl rfl rfl (by decide)
  exact ⟨rfl, rfl, rfl, by decide, h.1, h.2 2 (by omega)⟩

/-- C10 (refuted by the code, a bug): with the minimum accepted buffer
capacity of 512 bytes and a 300-character path, the header call returns
`snprintf`'s untruncated length 704, exceeding the buffer capacity the
caller provided. -/
theorem dir_read_count_exceeds_buffer :
    (on_dir_read ⟨longPath, some [], 0⟩ 512).res = ReadResult.chunk 704 ∧
    512 < 704 := by
  refine ⟨?_, by omega⟩
  have hlen : (dirHeader longPath).length = 704 := by decide
  simp [on_dir_read, hlen]

end Websrv
